import Mathlib

/-!
Verification of the SEGAN speech-enhancement training recipe
(`recipes/Voicebank/enhance/segan/train/train.py`).

The development shallowly embeds the recipe's pure logic:
waveforms are lists of rationals (one sample per entry), torch tensors of
shape `(batch, length, 1)` are lists of rows, `torch.reshape` is row-major
chunking guarded by torch's element-count check, and the per-batch
three-step adversarial update of `SEBrain.fit_batch` is explicit state
passing over the two optimizers' parameters and gradient buffers.
-/

namespace SEGAN

/-- `num_blocks = ceil(wav_size / 16384)` from `SEBrain.fit_batch` (train.py
line 155) and `SEBrain.evaluate_batch` (line 244), as a natural-number
ceiling division. -/
def numBlocks (wavSize : Nat) : Nat := (wavSize + 16384 - 1) / 16384

/-- One padded row: `zeros = torch.zeros(batch_size, num_blocks * 16384, 1)`
followed by `zeros[:, :wav_size, :] = wavs` (train.py lines 156-157), realised
per example row; the row `w` of the batch has length `wav_size`. -/
def padWav (wavSize : Nat) (w : List ℚ) : List ℚ :=
  w ++ List.replicate (numBlocks wavSize * 16384 - wavSize) (0 : ℚ)

/-- Row-major chunking of a flat list into `rows` rows of `cols` entries:
the view `torch.reshape` produces on a tensor of `rows * cols` elements. -/
def chunkRows (cols : Nat) : Nat → List ℚ → List (List ℚ)
  | 0, _ => []
  | rows + 1, xs => xs.take cols :: chunkRows cols rows (xs.drop cols)

/-- `torch.reshape(flat, (rows, cols, 1))`: defined exactly when the element
count matches the target shape, as in torch. -/
def reshapeRows (rows cols : Nat) (flat : List ℚ) : Option (List (List ℚ)) :=
  if flat.length = rows * cols then some (chunkRows cols rows flat) else none

/-- Block segmentation of a batch (train.py lines 152-167 and 241-256): each
of the `batch_size` rows of length `wav_size` is zero padded on the trailing
edge to `num_blocks * 16384` samples, and the result is reshaped to
`(batch_size * num_blocks, 16384, 1)`. -/
def segmentBatch (wavSize : Nat) (wavs : List (List ℚ)) : Option (List (List ℚ)) :=
  reshapeRows (wavs.length * numBlocks wavSize) 16384 ((wavs.map (padWav wavSize)).flatten)

/-- A torch scalar that is either a finite value or NaN/Inf. -/
inductive RVal where
  | fin : ℚ → RVal
  | nonfinite : RVal
deriving DecidableEq

def RVal.isFinite : RVal → Bool
  | .fin _ => true
  | .nonfinite => false

/-- Addition of torch scalars: a non-finite operand propagates. -/
def RVal.add : RVal → RVal → RVal
  | .fin a, .fin b => .fin (a + b)
  | _, _ => .nonfinite

/-- A scalar loss tensor: its value and whether it is attached to the autograd
graph. `detach` returns a new tensor without the graph connection and leaves
the receiver unchanged, exactly as `torch.Tensor.detach` does. -/
structure Tensor where
  val : RVal
  attached : Bool
deriving DecidableEq

def Tensor.detach (t : Tensor) : Tensor := { t with attached := false }

/-- Tensor addition: the sum stays attached when either operand is. -/
def Tensor.add (a b : Tensor) : Tensor := ⟨a.val.add b.val, a.attached || b.attached⟩

/-- The mutable state `fit_batch` acts on: the discriminator and generator
parameters owned by `optimizer_d` / `optimizer_g` (each summarised as one
rational) and the two gradient buffers that `backward` accumulates into and
`zero_grad` clears. -/
structure TrainState where
  dParams : ℚ
  gParams : ℚ
  dGrad : ℚ
  gGrad : ℚ
deriving DecidableEq

/-- The external collaborators of `SEBrain`: the two opaque networks, the three
pluggable cost functions from `hparams.compute_cost`, the gradient
contribution each `backward` accumulates, and the two optimizer step rules. -/
structure SEGANEnv where
  dForward : ℚ → List (List ℚ) → List (List ℚ) → RVal
  gForward : ℚ → List (List ℚ) → List (List ℚ)
  gForwardVae : ℚ → List (List ℚ) → List (List ℚ) × ℚ × ℚ
  costD1 : RVal → RVal
  costD2 : RVal → RVal
  costG3 : RVal → List (List ℚ) → List (List ℚ) → Option ℚ → Option ℚ → RVal
  gradD : RVal → ℚ
  gradG : RVal → ℚ
  stepD : ℚ → ℚ → ℚ
  stepG : ℚ → ℚ → ℚ

/-- Modelled from the spec: `self.check_gradients(loss)` is defined on the
speechbrain core `Brain` class, which is not among the files under review.
Per the spec the check is to "verify the loss value is finite; if not, skip
the optimizer step for that sub-loss". -/
def check_gradients (loss : Tensor) : Bool := loss.val.isFinite

/-- A collated batch as `fit_batch` receives it: `batch.id`,
`batch.noisy_sig = (noisy_wavs, lens)`, `batch.clean_sig = (clean_wavs, lens)`;
`wavSize` is `noisy_wavs.shape[1]`, the common padded row length. -/
structure Batch where
  ids : List String
  noisy : List (List ℚ)
  clean : List (List ℚ)
  lens : List ℚ
  wavSize : Nat

/-- The observable outcome of one `SEBrain.fit_batch` call: the block tensors,
the three discriminator outputs, the three loss tensors, the parameter values
right after each conditional optimizer step, the final optimizer state and the
returned loss. -/
structure FitResult where
  noisyBlocks : List (List ℚ)
  cleanBlocks : List (List ℚ)
  out_g2 : List (List ℚ)
  out_d2 : RVal
  out_d3 : RVal
  loss_d1 : Tensor
  loss_d2 : Tensor
  loss_g3 : Tensor
  dParamsAfter1 : ℚ
  dParamsAfter2 : ℚ
  gParamsAfter3 : ℚ
  final : TrainState
  ret : Tensor

/-- `loss.backward()` on a discriminator loss followed by the guarded
`if self.check_gradients(loss): self.optimizer_d.step()` and
`self.optimizer_d.zero_grad()` (train.py lines 172-175 and 186-189). -/
def dStep (env : SEGANEnv) (loss : Tensor) (s : TrainState) : TrainState :=
  let sa := { s with dGrad := s.dGrad + env.gradD loss.val }
  let sb := if check_gradients loss then
      { sa with dParams := env.stepD sa.dParams sa.dGrad } else sa
  { sb with dGrad := 0 }

/-- `loss.backward()` on the generator loss followed by the guarded
`if self.check_gradients(loss): self.optimizer_g.step()` and
`self.optimizer_g.zero_grad()` (train.py lines 204-207). -/
def gStep (env : SEGANEnv) (loss : Tensor) (s : TrainState) : TrainState :=
  let sa := { s with gGrad := s.gGrad + env.gradG loss.val }
  let sb := if check_gradients loss then
      { sa with gParams := env.stepG sa.gParams sa.gGrad } else sa
  { sb with gGrad := 0 }

/-- `SEBrain.fit_batch` (train.py lines 126-214): block segmentation, then the
three-step adversarial update threading the optimizer state.  Each
`loss.backward()` accumulates into the owning optimizer's gradient buffer,
each step is guarded by `check_gradients`, and each `zero_grad()` clears a
buffer.  The trailing `loss.detach().cpu()` calls of the source return new
tensors that the source discards, so the state is unchanged by them and the
returned sum is built from the attached originals. -/
def fitBatch (env : SEGANEnv) (latentVae : Bool) (b : Batch) (s : TrainState) :
    Option FitResult :=
  match segmentBatch b.wavSize b.noisy, segmentBatch b.wavSize b.clean with
  | some noisyB, some cleanB =>
    -- first of three step training process detailed in SEGAN paper
    let out_d1 := env.dForward s.dParams noisyB cleanB
    let loss_d1 : Tensor := ⟨env.costD1 out_d1, true⟩
    let s1 := dStep env loss_d1 s
    -- second training step
    let g2 := if latentVae then
        let o := env.gForwardVae s1.gParams noisyB
        (o.1, some o.2.1, some o.2.2)
      else (env.gForward s1.gParams noisyB, (none : Option ℚ), (none : Option ℚ))
    let out_g2 := g2.1
    let out_d2 := env.dForward s1.dParams out_g2 cleanB
    let loss_d2 : Tensor := ⟨env.costD2 out_d2, true⟩
    let s2 := dStep env loss_d2 s1
    -- third (last) training step: optimizer_g.zero_grad() first
    let s3a := { s2 with gGrad := 0 }
    let out_d3 := env.dForward s3a.dParams out_g2 cleanB
    let loss_g3 : Tensor := ⟨env.costG3 out_d3 out_g2 cleanB g2.2.1 g2.2.2, true⟩
    let sg := gStep env loss_g3 s3a
    let s3 := { sg with dGrad := 0 }
    some {
      noisyBlocks := noisyB, cleanBlocks := cleanB, out_g2 := out_g2,
      out_d2 := out_d2, out_d3 := out_d3,
      loss_d1 := loss_d1, loss_d2 := loss_d2, loss_g3 := loss_g3,
      dParamsAfter1 := s1.dParams, dParamsAfter2 := s2.dParams,
      gParamsAfter3 := s3.gParams, final := s3,
      ret := (loss_d1.add loss_d2).add loss_g3 }
  | _, _ => none

/-- `sb.Stage`. -/
inductive Stage where
  | TRAIN
  | VALID
  | TEST
deriving DecidableEq

/-- The observable outcome of one `SEBrain.evaluate_batch` call. -/
structure EvalResult where
  noisyBlocks : List (List ℚ)
  cleanBlocks : List (List ℚ)
  out_g2 : List (List ℚ)
  out_d1 : RVal
  out_d2 : RVal
  loss_d1 : RVal
  loss_d2 : RVal
  loss_g3 : RVal
  ret : RVal

/-- `SEBrain.evaluate_batch` (train.py lines 216-285): the same segmentation
and forward computations with no backward pass and no optimizer step; the
`g3` objective is computed from `out_d2`, the discriminator output of the
fake pair, with no further discriminator forward pass. -/
def evaluateBatch (env : SEGANEnv) (latentVae : Bool) (b : Batch) (_stage : Stage)
    (s : TrainState) : Option EvalResult :=
  match segmentBatch b.wavSize b.noisy, segmentBatch b.wavSize b.clean with
  | some noisyB, some cleanB =>
    let out_d1 := env.dForward s.dParams noisyB cleanB
    let loss_d1 := env.costD1 out_d1
    let g2 := if latentVae then
        let o := env.gForwardVae s.gParams noisyB
        (o.1, some o.2.1, some o.2.2)
      else (env.gForward s.gParams noisyB, (none : Option ℚ), (none : Option ℚ))
    let out_g2 := g2.1
    let out_d2 := env.dForward s.dParams out_g2 cleanB
    let loss_d2 := env.costD2 out_d2
    let loss_g3 := env.costG3 out_d2 out_g2 cleanB g2.2.1 g2.2.2
    some {
      noisyBlocks := noisyB, cleanBlocks := cleanB, out_g2 := out_g2,
      out_d1 := out_d1, out_d2 := out_d2,
      loss_d1 := loss_d1, loss_d2 := loss_d2, loss_g3 := loss_g3,
      ret := (loss_d1.add loss_d2).add loss_g3 }
  | _, _ => none

/-- `torch.max(torch.abs(pred_wav))` over a waveform. -/
def maxAbs (w : List ℚ) : ℚ := w.foldr (fun x m => max |x| m) 0

/-- `pred_wav / torch.max(torch.abs(pred_wav)) * 0.99`
(train.py line 118). -/
def normalizeWav (w : List ℚ) : List ℚ :=
  w.map (fun x => x / maxAbs w * (99 / 100))

/-- The un-blocking of `compute_objectives_g3` (train.py lines 96-100):
`predict_wavs.reshape(batch, num_blocks * 16384)[:, :T]` with `T` the clean
batch row length. -/
def unBlockRows (batchSize nb T : Nat) (blocks : List (List ℚ)) : List (List ℚ) :=
  (chunkRows (nb * 16384) batchSize blocks.flatten).map (fun w => w.take T)

/-- The TEST-stage file output of `compute_objectives_g3` (train.py lines
110-123): `lens = lens * T`, then for each `(name, pred_wav, length)` the file
`name + ".wav"` receives the peak-normalized waveform truncated to
`int(length)` samples (`length` is nonnegative, so `int` is the floor). -/
def g3TestWrites (ids : List String) (preds : List (List ℚ)) (lens : List ℚ)
    (T : Nat) : List (String × List ℚ) :=
  (ids.zip (preds.zip (lens.map (fun x => x * (T : ℚ))))).map
    (fun p => (p.1 ++ ".wav", (normalizeWav p.2.1).take (Int.toNat ⌊p.2.2⌋)))

/-- One retained checkpoint with the metadata that matters for retention. -/
structure Ckpt where
  epoch : Nat
  pesqScore : ℚ
deriving DecidableEq

/-- Modelled from the spec:
`self.checkpointer.save_and_keep_only(meta=stats, max_keys=["pesq"])` is
speechbrain library code, not among the files under review.  Per the spec it
persists a new checkpoint and retains "only the checkpoint(s) with the best
quality-score (a keep-best-by-metric policy, not keep-all or keep-last)". -/
def save_and_keep_only (store : List Ckpt) (c : Ckpt) : List Ckpt :=
  let all := store ++ [c]
  all.filter (fun x => all.all (fun y => decide (y.pesqScore ≤ x.pesqScore)))

/-- The checkpoint effect of `SEBrain.on_stage_end` (train.py lines 340-380):
only at the VALID stage a checkpoint is persisted, ranked on the `pesq`
statistic of the stage (`max_keys=["pesq"]`). -/
def on_stage_end_ckpt (stage : Stage) (store : List Ckpt) (epoch : Nat)
    (pesqAvg : ℚ) : List Ckpt :=
  match stage with
  | .VALID => save_and_keep_only store ⟨epoch, pesqAvg⟩
  | _ => store

/-- The dataloader options dict of the hyperparameter file; `batchSize` stands
for the unrelated entries that must be left untouched. -/
structure DataloaderOptions where
  batchSize : Nat
  shuffle : Bool
deriving DecidableEq

/-- What `dataio_prep` does to the train dataset order. -/
inductive TrainOrder where
  | unchanged
  | sortedAscending
  | sortedDescending
deriving DecidableEq

/-- The train-set sorting setup of `dataio_prep` (train.py lines 408-417):
`ascending` / `descending` sort the train set (reverse exactly for
`descending`) and mutate `dataloader_options["shuffle"] = False`; any other
value than `random` raises `NotImplementedError`. -/
def dataio_prep_sorting (sorting : String) (opts : DataloaderOptions) :
    Except String (TrainOrder × DataloaderOptions) :=
  if sorting = "ascending" ∨ sorting = "descending" then
    Except.ok
      (if sorting = "descending" then TrainOrder.sortedDescending
        else TrainOrder.sortedAscending,
       { opts with shuffle := false })
  else if ¬ (sorting = "random") then
    Except.error "Sorting must be random, ascending, or descending"
  else
    Except.ok (TrainOrder.unchanged, opts)

/-- A concrete environment for witnesses: the cost functions pass the
discriminator output through and each optimizer step moves the parameters. -/
def envW : SEGANEnv where
  dForward := fun _ _ _ => RVal.nonfinite
  gForward := fun _ _ => []
  gForwardVae := fun _ _ => ([], 0, 0)
  costD1 := fun v => v
  costD2 := fun v => v
  costG3 := fun v _ _ _ _ => v
  gradD := fun _ => 1
  gradG := fun _ => 1
  stepD := fun p _ => p + 1
  stepG := fun p _ => p + 1

/-- A concrete one-example batch with one-sample waveforms. -/
def batchW : Batch where
  ids := ["p232_001"]
  noisy := [[1]]
  clean := [[2]]
  lens := [1]
  wavSize := 1

/-- A concrete initial optimizer state. -/
def stateW : TrainState where
  dParams := 0
  gParams := 0
  dGrad := 0
  gGrad := 0

theorem le_numBlocks_mul (L : Nat) : L ≤ numBlocks L * 16384 := by
  unfold numBlocks
  omega

theorem padWav_length (L : Nat) (w : List ℚ) (hw : w.length = L) :
    (padWav L w).length = numBlocks L * 16384 := by
  have h := le_numBlocks_mul L
  simp [padWav, hw]
  omega

theorem sum_map_const (wavs : List (List ℚ)) (f : List ℚ → Nat) (c : Nat)
    (h : ∀ w ∈ wavs, f w = c) : (wavs.map f).sum = wavs.length * c := by
  induction wavs with
  | nil => simp
  | cons a l ih =>
    have ha : f a = c := h a (by simp)
    have hl : ∀ w ∈ l, f w = c := fun w hw => h w (by simp [hw])
    simp [ha, ih hl]
    ring

theorem join_padded_length (L : Nat) (wavs : List (List ℚ))
    (h : ∀ w ∈ wavs, w.length = L) :
    ((wavs.map (padWav L)).flatten).length = wavs.length * numBlocks L * 16384 := by
  rw [List.length_flatten, List.map_map]
  have : ∀ w ∈ wavs, (List.length ∘ padWav L) w = numBlocks L * 16384 := by
    intro w hw
    simp [Function.comp, padWav_length L w (h w hw)]
  rw [sum_map_const wavs _ _ this]
  ring

theorem segmentBatch_eq_some (L : Nat) (wavs : List (List ℚ))
    (h : ∀ w ∈ wavs, w.length = L) :
    segmentBatch L wavs =
      some (chunkRows 16384 (wavs.length * numBlocks L) ((wavs.map (padWav L)).flatten)) := by
  unfold segmentBatch reshapeRows
  rw [if_pos (join_padded_length L wavs h)]

theorem chunkRows_join (cols rows : Nat) (xs : List ℚ) (h : xs.length = rows * cols) :
    (chunkRows cols rows xs).flatten = xs := by
  induction rows generalizing xs with
  | zero =>
    have : xs = [] := List.length_eq_zero.mp (by omega)
    simp [chunkRows, this]
  | succ n ih =>
    have hd : (xs.drop cols).length = n * cols := by
      simp [List.length_drop, h, Nat.succ_mul]
    simp [chunkRows, ih (xs.drop cols) hd]

theorem chunkRows_length (cols rows : Nat) (xs : List ℚ) :
    (chunkRows cols rows xs).length = rows := by
  induction rows generalizing xs with
  | zero => simp [chunkRows]
  | succ n ih => simp [chunkRows, ih]

theorem chunkRows_row_length (cols rows : Nat) (xs : List ℚ)
    (h : xs.length = rows * cols) : ∀ b ∈ chunkRows cols rows xs, b.length = cols := by
  induction rows generalizing xs with
  | zero => simp [chunkRows]
  | succ n ih =>
    intro b hb
    have hd : (xs.drop cols).length = n * cols := by
      simp [List.length_drop, h, Nat.succ_mul]
    rcases List.mem_cons.mp hb with h1 | h2
    · subst h1
      simp [List.length_take, h, Nat.succ_mul]
    · exact ih (xs.drop cols) hd b h2

/-- `numBlocks` is the rational ceiling of `L / 16384`, matching
`ceil(wav_size / 16384)` computed with `math.ceil` on exact division. -/
theorem numBlocks_eq_ceil (L : Nat) : (numBlocks L : ℤ) = ⌈(L : ℚ) / 16384⌉ := by
  have h1 : numBlocks L * 16384 ≤ L + 16383 := Nat.div_mul_le_self _ _
  have h2 : L ≤ numBlocks L * 16384 := le_numBlocks_mul L
  have h1q : (numBlocks L : ℚ) * 16384 ≤ (L : ℚ) + 16383 := by exact_mod_cast h1
  have h2q : (L : ℚ) ≤ (numBlocks L : ℚ) * 16384 := by exact_mod_cast h2
  rw [eq_comm, Int.ceil_eq_iff]
  constructor
  · rw [lt_div_iff₀ (by norm_num : (0 : ℚ) < 16384)]
    push_cast
    linarith
  · rw [div_le_iff₀ (by norm_num : (0 : ℚ) < 16384)]
    push_cast
    linarith

theorem segment_shape (L N : Nat) (wavs : List (List ℚ)) (hN : wavs.length = N)
    (hw : ∀ w ∈ wavs, w.length = L) :
    ∃ nb, segmentBatch L wavs = some nb ∧ nb.length = N * numBlocks L ∧
      ∀ b ∈ nb, b.length = 16384 := by
  refine ⟨_, segmentBatch_eq_some L wavs hw, ?_, ?_⟩
  · rw [chunkRows_length, hN]
  · exact chunkRows_row_length _ _ _ (join_padded_length L wavs hw)

/-- C3: segmenting a waveform of length `L ≥ 1` into zero padded 16384-sample
blocks and then reassembling (flattening the blocks back to one waveform of
`num_blocks * 16384` samples and truncating to the first `L` samples) yields
the original waveform exactly. -/
theorem c3_segment_roundtrip (L : Nat) (w : List ℚ) (_hL : 1 ≤ L) (hw : w.length = L) :
    ∃ blocks, segmentBatch L [w] = some blocks ∧ blocks.flatten.take L = w := by
  refine ⟨_, segmentBatch_eq_some L [w] (by simpa using hw), ?_⟩
  rw [chunkRows_join _ _ _ (join_padded_length L [w] (by simpa using hw))]
  simp only [List.map_cons, List.map_nil, List.flatten_cons, List.flatten_nil,
    List.append_nil, padWav]
  rw [← hw, List.take_left]

theorem c3_segment_roundtrip_witness :
    1 ≤ 1 ∧ ([(5 : ℚ)]).length = 1 ∧
    ∃ blocks, segmentBatch 1 [[(5 : ℚ)]] = some blocks ∧
      blocks.flatten.take 1 = [(5 : ℚ)] :=
  ⟨by decide, by decide, c3_segment_roundtrip 1 [(5 : ℚ)] (by decide) (by decide)⟩

/-- C4: for a batch of `N` waveforms of padded length `L`, the block segmenter
computes `num_blocks = ceil(L / 16384)` (so `L = 16384` gives one block and
`L = 16385` gives two) and yields tensors of shape
`(N * num_blocks, 16384, 1)` for both the noisy and the clean waveforms. -/
theorem c4_segmenter_shape (N L : Nat) (noisy clean : List (List ℚ))
    (hn : noisy.length = N) (hc : clean.length = N)
    (hwn : ∀ w ∈ noisy, w.length = L) (hwc : ∀ w ∈ clean, w.length = L) :
    (numBlocks L : ℤ) = ⌈(L : ℚ) / 16384⌉ ∧
    numBlocks 16384 = 1 ∧ numBlocks 16385 = 2 ∧
    (∃ nb, segmentBatch L noisy = some nb ∧ nb.length = N * numBlocks L ∧
      ∀ b ∈ nb, b.length = 16384) ∧
    (∃ cb, segmentBatch L clean = some cb ∧ cb.length = N * numBlocks L ∧
      ∀ b ∈ cb, b.length = 16384) :=
  ⟨numBlocks_eq_ceil L, by decide, by decide,
    segment_shape L N noisy hn hwn, segment_shape L N clean hc hwc⟩

theorem c4_segmenter_shape_witness :
    ([[(1 : ℚ)]]).length = 1 ∧ ([[(2 : ℚ)]]).length = 1 ∧
    (∀ w ∈ [[(1 : ℚ)]], w.length = 1) ∧ (∀ w ∈ [[(2 : ℚ)]], w.length = 1) ∧
    ((numBlocks 1 : ℤ) = ⌈(1 : ℚ) / 16384⌉ ∧
      numBlocks 16384 = 1 ∧ numBlocks 16385 = 2 ∧
      (∃ nb, segmentBatch 1 [[(1 : ℚ)]] = some nb ∧ nb.length = 1 * numBlocks 1 ∧
        ∀ b ∈ nb, b.length = 16384) ∧
      (∃ cb, segmentBatch 1 [[(2 : ℚ)]] = some cb ∧ cb.length = 1 * numBlocks 1 ∧
        ∀ b ∈ cb, b.length = 16384)) :=
  ⟨by decide, by decide, by decide, by decide,
    c4_segmenter_shape 1 1 [[(1 : ℚ)]] [[(2 : ℚ)]]
      (by decide) (by decide) (by decide) (by decide)⟩

/-- C9 counterexample: on a batch of one length-0 waveform, the block
segmentation of `fit_batch` / `evaluate_batch` does not fail: `num_blocks`
is 0 and the reshape silently succeeds with an empty block tensor. -/
theorem c9_zero_length_cex :
    numBlocks 0 = 0 ∧ segmentBatch 0 [[]] = some [] := by
  exact ⟨by decide, rfl⟩

/-- C9 amended: for every batch whose waveform length is 0, the block
segmentation raises no error and silently produces an empty block tensor
(`num_blocks = 0`, zero rows), rather than failing fast. -/
theorem c9_zero_length_silent (wavs : List (List ℚ)) (h : ∀ w ∈ wavs, w.length = 0) :
    segmentBatch 0 wavs = some [] := by
  rw [segmentBatch_eq_some 0 wavs h]
  have h0 : wavs.length * numBlocks 0 = 0 := by simp [numBlocks]
  rw [h0]
  rfl

theorem c9_zero_length_silent_witness :
    (∀ w ∈ ([[], []] : List (List ℚ)), w.length = 0) ∧
    segmentBatch 0 ([[], []] : List (List ℚ)) = some [] :=
  ⟨by decide, c9_zero_length_silent ([[], []] : List (List ℚ)) (by decide)⟩

theorem dStep_dParams_nonfinite (env : SEGANEnv) (loss : Tensor) (s : TrainState)
    (h : loss.val.isFinite = false) : (dStep env loss s).dParams = s.dParams := by
  simp [dStep, check_gradients, h]

theorem dStep_gParams (env : SEGANEnv) (loss : Tensor) (s : TrainState) :
    (dStep env loss s).gParams = s.gParams := by
  simp only [dStep]
  split <;> rfl

theorem gStep_gParams_nonfinite (env : SEGANEnv) (loss : Tensor) (s : TrainState)
    (h : loss.val.isFinite = false) : (gStep env loss s).gParams = s.gParams := by
  simp [gStep, check_gradients, h]

/-- C1: in `fit_batch`, when a sub-loss (`d1`, `d2` or `g3`) is non-finite the
conditional optimizer step guarded by `check_gradients` is skipped, leaving
that model's parameters unchanged by that step, while both optimizers'
gradient buffers are zero when `fit_batch` returns. -/
theorem c1_nonfinite_skips_step (env : SEGANEnv) (latentVae : Bool) (b : Batch)
    (s : TrainState) (hn : ∀ w ∈ b.noisy, w.length = b.wavSize)
    (hc : ∀ w ∈ b.clean, w.length = b.wavSize) :
    ∃ r, fitBatch env latentVae b s = some r ∧
      (r.loss_d1.val.isFinite = false → r.dParamsAfter1 = s.dParams) ∧
      (r.loss_d2.val.isFinite = false → r.dParamsAfter2 = r.dParamsAfter1) ∧
      (r.loss_g3.val.isFinite = false → r.gParamsAfter3 = s.gParams) ∧
      r.final.dGrad = 0 ∧ r.final.gGrad = 0 := by
  have hnb := segmentBatch_eq_some b.wavSize b.noisy hn
  have hcb := segmentBatch_eq_some b.wavSize b.clean hc
  unfold fitBatch
  rw [hnb, hcb]
  refine ⟨_, rfl, ?_, ?_, ?_, rfl, rfl⟩
  · intro h
    exact dStep_dParams_nonfinite _ _ _ h
  · intro h
    exact dStep_dParams_nonfinite _ _ _ h
  · intro h
    exact (gStep_gParams_nonfinite _ _ _ h).trans
      ((dStep_gParams _ _ _).trans (dStep_gParams _ _ _))

/-- C2 is contradicted by the code: `fit_batch` returns
`loss_d1 + loss_d2 + loss_g3` in which the three sub-losses are the attached
originals, because the `detach().cpu()` results of train.py lines 210-212 are
discarded; the returned sum carries the values but keeps the autograd
connection. -/
theorem c2_return_still_attached (env : SEGANEnv) (latentVae : Bool) (b : Batch)
    (s : TrainState) (hn : ∀ w ∈ b.noisy, w.length = b.wavSize)
    (hc : ∀ w ∈ b.clean, w.length = b.wavSize) :
    ∃ r, fitBatch env latentVae b s = some r ∧
      r.ret.val = (r.loss_d1.val.add r.loss_d2.val).add r.loss_g3.val ∧
      r.ret.attached = true := by
  have hnb := segmentBatch_eq_some b.wavSize b.noisy hn
  have hcb := segmentBatch_eq_some b.wavSize b.clean hc
  unfold fitBatch
  rw [hnb, hcb]
  exact ⟨_, rfl, rfl, rfl⟩

/-- C8: in `fit_batch` the `g3` objective receives `out_d3`, a fresh third
discriminator forward pass on the (candidate-clean, clean) pair evaluated at
the discriminator parameters as updated by the second discriminator step
(while `out_d2` was evaluated at the pre-update parameters); in
`evaluate_batch` the `g3` objective receives `out_d2`, the fake-pair
discriminator output, with no further discriminator forward pass. -/
theorem c8_fresh_forward_vs_reuse (env : SEGANEnv) (latentVae : Bool) (b : Batch)
    (s : TrainState) (stage : Stage) (hn : ∀ w ∈ b.noisy, w.length = b.wavSize)
    (hc : ∀ w ∈ b.clean, w.length = b.wavSize) :
    (∃ r, fitBatch env latentVae b s = some r ∧
      r.out_d3 = env.dForward r.dParamsAfter2 r.out_g2 r.cleanBlocks ∧
      r.out_d2 = env.dForward r.dParamsAfter1 r.out_g2 r.cleanBlocks ∧
      ∃ zm zl, r.loss_g3.val = env.costG3 r.out_d3 r.out_g2 r.cleanBlocks zm zl) ∧
    (∃ e, evaluateBatch env latentVae b stage s = some e ∧
      ∃ zm zl, e.loss_g3 = env.costG3 e.out_d2 e.out_g2 e.cleanBlocks zm zl) := by
  have hnb := segmentBatch_eq_some b.wavSize b.noisy hn
  have hcb := segmentBatch_eq_some b.wavSize b.clean hc
  constructor
  · unfold fitBatch
    rw [hnb, hcb]
    exact ⟨_, rfl, rfl, rfl, _, _, rfl⟩
  · unfold evaluateBatch
    rw [hnb, hcb]
    exact ⟨_, rfl, _, _, rfl⟩

theorem c1_nonfinite_skips_step_witness :
    (∀ w ∈ batchW.noisy, w.length = batchW.wavSize) ∧
    (∀ w ∈ batchW.clean, w.length = batchW.wavSize) ∧
    ∃ r, fitBatch envW false batchW stateW = some r ∧
      (r.loss_d1.val.isFinite = false → r.dParamsAfter1 = stateW.dParams) ∧
      (r.loss_d2.val.isFinite = false → r.dParamsAfter2 = r.dParamsAfter1) ∧
      (r.loss_g3.val.isFinite = false → r.gParamsAfter3 = stateW.gParams) ∧
      r.final.dGrad = 0 ∧ r.final.gGrad = 0 :=
  ⟨by decide, by decide,
    c1_nonfinite_skips_step envW false batchW stateW (by decide) (by decide)⟩

theorem c2_return_still_attached_witness :
    (∀ w ∈ batchW.noisy, w.length = batchW.wavSize) ∧
    (∀ w ∈ batchW.clean, w.length = batchW.wavSize) ∧
    ∃ r, fitBatch envW false batchW stateW = some r ∧
      r.ret.val = (r.loss_d1.val.add r.loss_d2.val).add r.loss_g3.val ∧
      r.ret.attached = true :=
  ⟨by decide, by decide,
    c2_return_still_attached envW false batchW stateW (by decide) (by decide)⟩

theorem c8_fresh_forward_vs_reuse_witness :
    (∀ w ∈ batchW.noisy, w.length = batchW.wavSize) ∧
    (∀ w ∈ batchW.clean, w.length = batchW.wavSize) ∧
    ((∃ r, fitBatch envW false batchW stateW = some r ∧
      r.out_d3 = envW.dForward r.dParamsAfter2 r.out_g2 r.cleanBlocks ∧
      r.out_d2 = envW.dForward r.dParamsAfter1 r.out_g2 r.cleanBlocks ∧
      ∃ zm zl, r.loss_g3.val = envW.costG3 r.out_d3 r.out_g2 r.cleanBlocks zm zl) ∧
    (∃ e, evaluateBatch envW false batchW Stage.VALID stateW = some e ∧
      ∃ zm zl, e.loss_g3 = envW.costG3 e.out_d2 e.out_g2 e.cleanBlocks zm zl)) :=
  ⟨by decide, by decide,
    c8_fresh_forward_vs_reuse envW false batchW stateW Stage.VALID
      (by decide) (by decide)⟩

theorem maxAbs_nonneg (w : List ℚ) : 0 ≤ maxAbs w := by
  induction w with
  | nil => simp [maxAbs]
  | cons a l ih => exact le_trans ih (le_max_right _ _)

theorem maxAbs_map_mul (w : List ℚ) (k : ℚ) (hk : 0 ≤ k) :
    maxAbs (w.map (fun x => x * k)) = maxAbs w * k := by
  induction w with
  | nil => simp [maxAbs]
  | cons a l ih =>
    show max |a * k| (maxAbs (l.map (fun x => x * k))) = max |a| (maxAbs l) * k
    rw [ih, abs_mul, abs_of_nonneg hk, max_mul_of_nonneg _ _ hk]

theorem normalizeWav_eq (w : List ℚ) :
    normalizeWav w = w.map (fun x => x * ((99 / 100) / maxAbs w)) := by
  unfold normalizeWav
  refine List.map_congr_left ?_
  intro x _
  ring

theorem normalizeWav_peak (w : List ℚ) (h : maxAbs w ≠ 0) :
    maxAbs (normalizeWav w) = 99 / 100 := by
  have hpos : 0 < maxAbs w := lt_of_le_of_ne (maxAbs_nonneg w) (Ne.symm h)
  rw [normalizeWav_eq, maxAbs_map_mul _ _ (by positivity), mul_comm]
  exact div_mul_cancel₀ _ h

theorem maxAbs_take_le (w : List ℚ) (n : Nat) : maxAbs (w.take n) ≤ maxAbs w := by
  induction w generalizing n with
  | nil => simp
  | cons a l ih =>
    cases n with
    | zero =>
      simp [maxAbs]
    | succ m =>
      exact max_le_max le_rfl (ih m)

theorem get?_zip {α β : Type} (l1 : List α) (l2 : List β) (i : Nat) (a : α) (c : β)
    (h1 : l1.get? i = some a) (h2 : l2.get? i = some c) :
    (l1.zip l2).get? i = some (a, c) := by
  induction l1 generalizing l2 i with
  | nil => simp at h1
  | cons x xs ih =>
    cases l2 with
    | nil => simp at h2
    | cons y ys =>
      cases i with
      | zero =>
        simp only [List.get?_cons_zero, Option.some.injEq] at h1 h2
        subst h1
        subst h2
        rw [List.zip_cons_cons, List.get?_cons_zero]
      | succ n =>
        rw [List.get?_cons_succ] at h1 h2
        rw [List.zip_cons_cons, List.get?_cons_succ]
        exact ih ys n h1 h2

/-- C7: at TEST stage, `compute_objectives_g3` emits exactly one audio file
per batch example, named `<id>.wav`, whose content is that example's
reconstructed waveform (blocks reshaped back to the flat batch row and
truncated to the batch length `T`), peak normalized so its peak absolute
amplitude is 0.99 whenever the peak is nonzero, and truncated to the
example's true length `int(len_i * T)`; in particular the written content
never exceeds 0.99 in absolute amplitude. -/
theorem c7_test_stage_writes (ids : List String) (blocks : List (List ℚ))
    (lens : List ℚ) (N nb T : Nat) (hi : ids.length = N) (hl : lens.length = N) :
    (g3TestWrites ids (unBlockRows N nb T blocks) lens T).length = N ∧
    (∀ i name w fr, ids.get? i = some name →
      (unBlockRows N nb T blocks).get? i = some w → lens.get? i = some fr →
      (g3TestWrites ids (unBlockRows N nb T blocks) lens T).get? i =
        some (name ++ ".wav", (normalizeWav w).take (Int.toNat ⌊fr * (T : ℚ)⌋))) ∧
    (∀ w, maxAbs w ≠ 0 → maxAbs (normalizeWav w) = 99 / 100) ∧
    (∀ w n, maxAbs w ≠ 0 → maxAbs ((normalizeWav w).take n) ≤ 99 / 100) := by
  have hu : (unBlockRows N nb T blocks).length = N := by
    simp [unBlockRows, chunkRows_length]
  refine ⟨?_, ?_, ?_, ?_⟩
  · simp [g3TestWrites, hu, hi, hl]
  · intro i name w fr h1 h2 h3
    have h3m : (lens.map (fun x => x * (T : ℚ))).get? i = some (fr * (T : ℚ)) := by
      rw [List.get?_map, h3]
      rfl
    have hz : ((unBlockRows N nb T blocks).zip
        (lens.map (fun x => x * (T : ℚ)))).get? i = some (w, fr * (T : ℚ)) :=
      get?_zip _ _ _ _ _ h2 h3m
    have hz2 : (ids.zip ((unBlockRows N nb T blocks).zip
        (lens.map (fun x => x * (T : ℚ))))).get? i = some (name, w, fr * (T : ℚ)) :=
      get?_zip _ _ _ _ _ h1 hz
    unfold g3TestWrites
    rw [List.get?_map, hz2]
    rfl
  · intro w h
    exact normalizeWav_peak w h
  · intro w n h
    exact (normalizeWav_peak w h) ▸ maxAbs_take_le (normalizeWav w) n

theorem c7_test_stage_writes_witness :
    (["p232_002"].length = 1) ∧ ([(1 : ℚ)].length = 1) ∧
    ((g3TestWrites ["p232_002"] (unBlockRows 1 0 0 []) [(1 : ℚ)] 0).length = 1 ∧
    (∀ i name w fr, (["p232_002"] : List String).get? i = some name →
      (unBlockRows 1 0 0 []).get? i = some w → ([(1 : ℚ)]).get? i = some fr →
      (g3TestWrites ["p232_002"] (unBlockRows 1 0 0 []) [(1 : ℚ)] 0).get? i =
        some (name ++ ".wav", (normalizeWav w).take (Int.toNat ⌊fr * ((0 : Nat) : ℚ)⌋))) ∧
    (∀ w, maxAbs w ≠ 0 → maxAbs (normalizeWav w) = 99 / 100) ∧
    (∀ w n, maxAbs w ≠ 0 → maxAbs ((normalizeWav w).take n) ≤ 99 / 100)) :=
  ⟨by decide, by decide,
    c7_test_stage_writes ["p232_002"] [] [(1 : ℚ)] 1 0 0 (by decide) (by decide)⟩

/-- C6: at the end of every VALID stage a checkpoint is persisted under a
keep-best policy keyed on the `pesq` score: a checkpoint is retained after
the call exactly when its `pesq` score is maximal among all checkpoints seen
so far (the previously retained ones and the new one) — neither keep-all nor
keep-most-recent. -/
theorem c6_valid_keeps_best (store : List Ckpt) (epoch : Nat) (q : ℚ) :
    ∀ c, c ∈ on_stage_end_ckpt Stage.VALID store epoch q ↔
      (c ∈ store ++ [⟨epoch, q⟩] ∧
        ∀ y ∈ store ++ [⟨epoch, q⟩], y.pesqScore ≤ c.pesqScore) := by
  intro c
  simp only [on_stage_end_ckpt, save_and_keep_only, List.mem_filter,
    List.all_eq_true, decide_eq_true_iff]

/-- C5: `dataio_prep` raises its descriptive `NotImplementedError` exactly
when the configured sorting mode is none of `random`, `ascending`,
`descending`; for the three recognized modes no error is raised, and the
error message is always the descriptive one. -/
theorem c5_sorting_error_iff (sorting : String) (opts : DataloaderOptions) :
    ((∃ e, dataio_prep_sorting sorting opts = Except.error e) ↔
      (sorting ≠ "random" ∧ sorting ≠ "ascending" ∧ sorting ≠ "descending")) ∧
    (∀ e, dataio_prep_sorting sorting opts = Except.error e →
      e = "Sorting must be random, ascending, or descending") := by
  by_cases ha : sorting = "ascending"
  · subst ha
    simp [dataio_prep_sorting]
  · by_cases hd : sorting = "descending"
    · subst hd
      simp [dataio_prep_sorting]
    · by_cases hr : sorting = "random"
      · subst hr
        simp [dataio_prep_sorting,
          show ("random" : String) ≠ "ascending" from by decide,
          show ("random" : String) ≠ "descending" from by decide]
      · simp [dataio_prep_sorting, ha, hd, hr]

/-- C10: for sorting mode `ascending` or `descending`, `dataio_prep` sorts
the train set and as a side effect sets `dataloader_options["shuffle"]` to
`False` (leaving the other options untouched); for `random` the dataloader
options are returned unchanged. -/
theorem c10_sorting_shuffle_effect (opts : DataloaderOptions) :
    dataio_prep_sorting "ascending" opts =
      Except.ok (TrainOrder.sortedAscending, { opts with shuffle := false }) ∧
    dataio_prep_sorting "descending" opts =
      Except.ok (TrainOrder.sortedDescending, { opts with shuffle := false }) ∧
    dataio_prep_sorting "random" opts = Except.ok (TrainOrder.unchanged, opts) := by
  refine ⟨?_, ?_, ?_⟩
  · simp [dataio_prep_sorting, show ("ascending" : String) ≠ "descending" from by decide]
  · simp [dataio_prep_sorting]
  · simp [dataio_prep_sorting,
      show ("random" : String) ≠ "ascending" from by decide,
      show ("random" : String) ≠ "descending" from by decide]

end SEGAN
